import Mathlib

/-!
Verification of the interactive spatial-query and selection subsystem of the
openMVS Viewer (`apps/Viewer/Scene.cpp`, `apps/Viewer/Image.cpp`,
`apps/Viewer/Scene.h`).

The development shallowly embeds the code paths relevant to the selection
subsystem: the deferred image slot state machine, the background worker loop,
the ray-pick resolver of `Scene::OnCastRay`, the selection-derived geometry
operations (`RemoveSelectedGeometry`, `CropToBounds`, `SetROIFromSelection`,
`CropToPoints`) and the index conversion `Scene::ImageIdxMVS2Viewer`.

External library computations (ray/octree intersection, cone classification,
OBB fitting, scene sub-setting) are not part of the sources; their *results*
are taken as inputs of the embedded functions, exactly at the points where the
code consumes them.  Machine floating point times and distances are embedded
as rationals; `FLT_MAX` (the initial `minDist`) is embedded as `Option.none`
(i.e. +infinity), since every candidate distance produced by the intersection
routines is below `FLT_MAX`.
-/

namespace Viewer

/-- 3D point with rational coordinates (embedding of `Point3f`). -/
structure Point3 where
  x : ℚ
  y : ℚ
  z : ℚ
deriving DecidableEq, Repr

/-- The deferred image slot state of `VIEWER::Image`: the atomic pointer
`pImage` equals the sentinel `IMG_NULL` (EMPTY), the sentinel `IMG_LOADING`
(LOADING), or a real buffer address (READY).  The buffer is abstracted as a
natural-number identifier. -/
inductive Slot where
  | EMPTY
  | LOADING
  | READY (buf : ℕ)
deriving DecidableEq, Repr

namespace Slot

/-- `Image::IsImageValid()`: the pointer is a real buffer (greater than both
sentinels). -/
def isReady : Slot → Bool
  | READY _ => true
  | _ => false

/-- `Image::SetImageLoading()`: `ASSERT(IsImageEmpty())`, then exchange the
pointer to `IMG_LOADING`.  An assertion failure (slot not EMPTY) is embedded
as `none`. -/
def setImageLoading : Slot → Option Slot
  | EMPTY => some LOADING
  | _ => none

/-- `Image::AssignImage(img)`: `ASSERT(IsImageLoading())`, then exchange the
pointer to the freshly allocated buffer, reaching READY.  An assertion
failure (slot not LOADING) is embedded as `none`.  (The width-multiple-of-4
downsampling only changes the buffer contents, not the slot state.) -/
def assignImage (s : Slot) (buf : ℕ) : Option Slot :=
  match s with
  | LOADING => some (READY buf)
  | _ => none

/-- `Image::TransferImage()`: if the slot is not READY (`!IsImageValid()`),
return `false` with no side effect; otherwise upload the buffer, release it
(slot becomes EMPTY via `ReleaseImage`) and return `true`. -/
def transferImage : Slot → Bool × Slot
  | READY _ => (true, EMPTY)
  | s => (false, s)

/-- `Image::ReleaseImage()`: if the slot holds a real buffer, free it and
exchange the pointer to `IMG_NULL`; otherwise leave the slot unchanged. -/
def releaseImage : Slot → Slot
  | READY _ => EMPTY
  | s => s

end Slot

/-!  Background worker (`EVTLoadImage::Run` and `Scene::ThreadWorker`). -/

/-- `EVTLoadImage::Run` acting on the target image slot.  The external decode
step `imageData.image.empty() && !imageData.ReloadImage(...)` is summarized by
its outcome: `hasCached` (the MVS image already holds pixel data) and
`reloadOk` (the reload from disk succeeded).  On decode failure the function
returns `false` immediately, leaving the slot untouched; on success it calls
`AssignImage` (which requires LOADING) installing a new buffer `buf`. -/
def evtLoadImageRun (hasCached reloadOk : Bool) (buf : ℕ) (s : Slot) :
    Bool × Slot :=
  if !hasCached && !reloadOk then
    (false, s)
  else
    match s.assignImage buf with
    | some s2 => (true, s2)
    | none => (true, s)

/-- Events processed by the worker thread: a WORK job (carrying the result of
running it, `true` on success, and the slot transformation it performs) or the
CLOSE event. -/
inductive WorkerEvent where
  | JOB (run : Slot → Bool × Slot)
  | CLOSE

/-- `Scene::ThreadWorker`: repeatedly take the next event; a JOB is run (its
boolean result is discarded) and the loop continues; CLOSE terminates the
loop, leaving the remaining events unprocessed.  Returns the slot after the
loop exits together with the number of jobs executed. -/
def threadWorker : List WorkerEvent → Slot → Slot × ℕ
  | [], s => (s, 0)
  | WorkerEvent.CLOSE :: _, s => (s, 0)
  | WorkerEvent.JOB run :: rest, s =>
      let r := threadWorker rest (run s).2
      (r.1, r.2 + 1)

/-!  Pick resolver (`Scene::OnCastRay`). -/

/-- `Window::SELECTION` tag. -/
inductive Sel where
  | NA
  | POINT
  | TRIANGLE
  | CAMERA
deriving DecidableEq, Repr

/-- The persistent selection state of `Window` read and written by
`Scene::OnCastRay`.  `selectedNeighborCamera = none` embeds `NO_ID`. -/
structure WinState where
  selectionType : Sel
  selectionIdx : ℕ
  selectionPoints : Point3 × Point3 × Point3 × Point3
  selectionTime : ℚ
  selectionTimeClick : ℚ
  selectedNeighborCamera : Option ℕ
deriving DecidableEq, Repr

/-- Externally visible calls issued by `Scene::OnCastRay` (camera mode
changes, the `OnCenterScene` request, and the final render notifications). -/
inductive Effect where
  | SetCameraViewMode (i : ℕ)
  | DisableCameraViewMode
  | CenterScene (p : Point3)
  | UploadSelection
  | RequestRedraw
deriving DecidableEq, Repr

/-- GLFW pointer action. -/
inductive PtrAction where
  | PRESS
  | RELEASE
deriving DecidableEq, Repr

/-- The per-click inputs of `Scene::OnCastRay`: the timestamp, the modifier
bits, the display toggles and octree emptiness flags, and the results of the
external spatial queries for this ray.  `meshHit` is the
`MVS::IntersectRayMesh` pick (face index, parametric distance, the three face
vertices); `pointHit` is the `MVS::IntersectRayPoints` pick (point index,
distance, point position); `cameraHits` lists, per viewer image in order, the
cone-classification outcome (`some dist` iff VISIBLE) and the camera center
`imageData.camera.C`; `rayAt` is `ray.GetPoint`. -/
structure RayInput where
  now : ℚ
  altMod : Bool
  ctrlMod : Bool
  showMesh : Bool
  showPointCloud : Bool
  octMeshEmpty : Bool
  octPointsEmpty : Bool
  meshHit : Option (ℕ × ℚ × (Point3 × Point3 × Point3))
  pointHit : Option (ℕ × ℚ × Point3)
  cameraHits : List (Option ℚ × Point3)
  rayAt : ℚ → Point3

/-- The tentative selection being arbitrated inside the RELEASE branch:
`window.selectionType` (written during resolution), `newSelectionIdx`,
`newSelectionPoints` and `minDist`.  `minDist = none` embeds the initial
`FLT_MAX` (no candidate yet); every real candidate distance is below it. -/
structure Tentative where
  selType : Sel
  idx : ℕ
  pts : Point3 × Point3 × Point3 × Point3
  minDist : Option ℚ
deriving DecidableEq, Repr

/-- `dist < minDist` with `minDist = none` standing for `FLT_MAX`. -/
def ltMinDist (d : ℚ) : Option ℚ → Bool
  | none => true
  | some m => decide (d < m)

/-- The default `Point3f` value used for the entries of the stack array
`newSelectionPoints[4]` that a branch does not write. -/
def pt0 : Point3 := ⟨0, 0, 0⟩

/-- Step (a) of the resolution: if the mesh is displayed and its octree is
built, query it; on a valid pick install TRIANGLE with the face vertices and
the ray point at the hit distance. -/
def resolveMesh (inp : RayInput) : Tentative :=
  let init : Tentative := ⟨Sel.NA, 0, (pt0, pt0, pt0, pt0), none⟩
  if inp.showMesh && !inp.octMeshEmpty then
    match inp.meshHit with
    | some (i, d, (v0, v1, v2)) =>
        ⟨Sel.TRIANGLE, i, (v0, v1, v2, inp.rayAt d), some d⟩
    | none => init
  else init

/-- Step (b): if the point cloud is displayed and its octree is built, query
it; on a valid pick whose distance is strictly smaller than the tentative
distance, install POINT (writing entries 0 and 3 of the display points). -/
def resolvePoints (inp : RayInput) (t : Tentative) : Tentative :=
  if inp.showPointCloud && !inp.octPointsEmpty then
    match inp.pointHit with
    | some (j, d, p) =>
        if ltMinDist d t.minDist then
          ⟨Sel.POINT, j, (p, t.pts.2.1, t.pts.2.2.1, p), some d⟩
        else t
    | none => t
  else t

/-- Step (c), loop body over the remaining cameras with `k` the viewer index
of the next one: if the ray-vs-cone test is VISIBLE and the distance is
strictly smaller than the tentative distance, install CAMERA at that viewer
index (writing entries 0 and 3). -/
def resolveCamerasAux (k : ℕ) :
    List (Option ℚ × Point3) → Tentative → Tentative
  | [], t => t
  | c :: rest, t =>
      resolveCamerasAux (k + 1) rest
        (match c.1 with
         | some d =>
             if ltMinDist d t.minDist then
               ⟨Sel.CAMERA, k, (c.2, t.pts.2.1, t.pts.2.2.1, c.2), some d⟩
             else t
         | none => t)

/-- Step (c): `FOREACH(idx, images)` starting at viewer index 0. -/
def resolveCameras (cams : List (Option ℚ × Point3)) (t : Tentative) :
    Tentative :=
  resolveCamerasAux 0 cams t

/-- The full candidate arbitration of the RELEASE branch: mesh, then points,
then cameras. -/
def resolvePick (inp : RayInput) : Tentative :=
  resolveCameras inp.cameraHits (resolvePoints inp (resolveMesh inp))

/-- `timeClick` (0.2 s). -/
def timeClick : ℚ := 2 / 10

/-- `timeDblClick` (0.3 s). -/
def timeDblClick : ℚ := 3 / 10

/-- The RELEASE branch of `Scene::OnCastRay`, given the pre-state and the
click inputs; returns the post-state and the effects issued, in order. -/
def onCastRayRelease (st : WinState) (inp : RayInput) :
    WinState × List Effect :=
  if timeClick < inp.now - st.selectionTimeClick then
    -- long click, ignore
    (st, [])
  else if st.selectionType ≠ Sel.NA ∧
      inp.now - st.selectionTime < timeDblClick then
    -- double click: center the scene at the selected element
    if st.selectionType = Sel.CAMERA then
      ({st with selectionTime := inp.now},
        [Effect.SetCameraViewMode st.selectionIdx])
    else
      ({st with selectionTime := inp.now},
        [Effect.DisableCameraViewMode,
         Effect.CenterScene st.selectionPoints.2.2.2])
  else
    let prev := st.selectionType
    let t := resolvePick inp
    let stEff : WinState × List Effect :=
      if t.selType = Sel.CAMERA ∧ inp.altMod then
        -- alt: set view camera mode, restore the previous selection type
        ({st with selectionType := prev}, [Effect.SetCameraViewMode t.idx])
      else if t.selType = Sel.CAMERA ∧ inp.ctrlMod then
        -- ctrl: select neighbor camera
        ({st with selectionType := Sel.CAMERA,
                  selectedNeighborCamera := some t.idx}, [])
      else if t.selType ≠ Sel.NA then
        -- normal selection
        ({st with selectionType := t.selType,
                  selectionIdx := t.idx,
                  selectedNeighborCamera := none,
                  selectionPoints := t.pts,
                  selectionTime := inp.now}, [])
      else
        -- no tentative selection: the selection type stays cleared
        ({st with selectionType := Sel.NA}, [])
    -- the logging switch on the (possibly restored) selection type: in the
    -- SEL_CAMERA case, without alt/ctrl modifiers, camera view mode is left
    let swEff : List Effect :=
      if t.selType ≠ Sel.NA ∧ stEff.1.selectionType = Sel.CAMERA ∧
          !inp.altMod ∧ !inp.ctrlMod then
        [Effect.DisableCameraViewMode]
      else []
    let uplEff : List Effect :=
      if stEff.1.selectionType ≠ Sel.NA ∨ prev ≠ Sel.NA then
        [Effect.UploadSelection, Effect.RequestRedraw]
      else []
    (stEff.1, stEff.2 ++ swEff ++ uplEff)

/-- `Scene::OnCastRay`: guarded by `IsOpen() && IsOctreeValid()` (summarized
by `ready`); PRESS records the click start time, RELEASE runs the click state
machine. -/
def onCastRay (ready : Bool) (st : WinState) (act : PtrAction)
    (inp : RayInput) : WinState × List Effect :=
  if !ready then (st, [])
  else
    match act with
    | PtrAction.PRESS => ({st with selectionTimeClick := inp.now}, [])
    | PtrAction.RELEASE => onCastRayRelease st inp

/-!  Selection-derived geometry operations (`Scene::RemoveSelectedGeometry`,
`Scene::UpdateGeometryAfterModification`, `Scene::CropToBounds`,
`Scene::Open`'s octree enqueue). -/

/-- The scene geometry state used by the selection-derived operations: the
point-cloud points, the mesh vertices and faces, and the `IsOpen` /
`IsBounded` flags. -/
structure GeomScene where
  points : List Point3
  vertices : List Point3
  faces : List (ℕ × ℕ × ℕ)
  isOpenScene : Bool
  isBoundedScene : Bool
deriving DecidableEq, Repr

/-- Modelled from the spec: `MVS::Scene::IsEmpty()` (library code not under
src/) — the scene holds no geometry: the point cloud is empty
(`pointcloud.IsEmpty()`, no points) and the mesh is empty (`mesh.IsEmpty()`,
no vertices). -/
def sceneIsEmpty (s : GeomScene) : Bool :=
  s.points.isEmpty && s.vertices.isEmpty

/-- The bulk Selection Set of the selection controller: the selected point
indices and selected face indices. -/
structure SelSet where
  selPoints : List ℕ
  selFaces : List ℕ
deriving DecidableEq, Repr

/-- Modelled from the spec: `SelectionController::hasSelection()` (not under
src/) — the bulk Selection Set is non-empty (some point or face indices are
selected). -/
def hasSelection (sel : SelSet) : Bool :=
  !sel.selPoints.isEmpty || !sel.selFaces.isEmpty

/-- The empty Selection Set (`clearSelection`). -/
def emptySel : SelSet := ⟨[], []⟩

/-- Modelled from the spec: `MVS::PointCloud::RemovePoints` /
`MVS::Mesh::RemoveFaces` (library code not under src/) — delete the elements
at the listed indices from the collection. -/
def removeIndices {α : Type} (l : List α) (idxs : List ℕ) : List α :=
  (l.enum.filter (fun p => !(idxs.contains p.1))).map Prod.snd

/-- Jobs enqueued on the worker queue by the geometry operations. -/
inductive Job where
  | ComputeOctree
deriving DecidableEq, Repr

/-- Non-job side effects of the geometry operations. -/
inductive SceneEffect where
  | ReleaseOctrees
  | UploadRenderData
  | ClearSelection
  | SetSceneBounds
  | RequestRedraw
deriving DecidableEq, Repr

/-- `Scene::UpdateGeometryAfterModification`: release both octrees, enqueue a
rebuild job when the scene still holds geometry, upload render data and clear
the Selection Set. -/
def updateGeometryAfterModification (s : GeomScene) :
    List Job × List SceneEffect :=
  (if !sceneIsEmpty s then [Job.ComputeOctree] else [],
   [SceneEffect.ReleaseOctrees, SceneEffect.UploadRenderData,
    SceneEffect.ClearSelection])

/-- `Scene::RemoveSelectedGeometry`: returns the new geometry, the new
Selection Set, the jobs enqueued and the effects issued. -/
def removeSelectedGeometry (s : GeomScene) (sel : SelSet) :
    GeomScene × SelSet × List Job × List SceneEffect :=
  if !hasSelection sel then (s, sel, [], [])
  else
    let remPts := !s.points.isEmpty && !sel.selPoints.isEmpty
    let s1 := if remPts then
        {s with points := removeIndices s.points sel.selPoints} else s
    let remFcs := !s.vertices.isEmpty && !sel.selFaces.isEmpty
    let s2 := if remFcs then
        {s1 with faces := removeIndices s1.faces sel.selFaces} else s1
    if remPts || remFcs then
      let ue := updateGeometryAfterModification s2
      (s2, emptySel, ue.1, ue.2 ++ [SceneEffect.RequestRedraw])
    else
      (s2, sel, [], [SceneEffect.RequestRedraw])

/-- `Scene::CropToBounds`: when the scene is open and bounded, discard the
points outside the ROI and the faces with a vertex outside it, then update the
scene bounds.  The ROI membership test (`OBB3f` containment, library code) is
the parameter `inROI`.  Keeping a face requires all three of its vertices
inside, modelled from the spec ("discard all faces with any vertex outside").
Note: no octree rebuild job is enqueued. -/
def cropToBounds (inROI : Point3 → Bool) (s : GeomScene) :
    GeomScene × List Job × List SceneEffect :=
  if !s.isOpenScene then (s, [], [])
  else if !s.isBoundedScene then (s, [], [])
  else
    ({s with
        points := s.points.filter inROI,
        faces := s.faces.filter (fun f =>
          inROI (s.vertices.getD f.1 pt0) &&
          inROI (s.vertices.getD f.2.1 pt0) &&
          inROI (s.vertices.getD f.2.2 pt0))},
     [], [SceneEffect.SetSceneBounds])

/-- The octree-enqueue step of `Scene::Open` (lines 225-227): after loading,
enqueue the octree build job when the scene holds geometry. -/
def sceneOpenJobs (s : GeomScene) : List Job :=
  if !sceneIsEmpty s then [Job.ComputeOctree] else []

/-!  ROI fitting (`Scene::SetROIFromSelection`). -/

/-- An oriented box reduced to the data the claims inspect: center and
half-extents (the rotation plays no role in the margin computation). -/
structure BoxROI where
  center : Point3
  halfSize : Point3
deriving DecidableEq, Repr

/-- `GetSize().maxCoeff()`: the largest full extent of the box (full size is
twice the half-extents). -/
def maxExtent (b : BoxROI) : ℚ :=
  max (2 * b.halfSize.x) (max (2 * b.halfSize.y) (2 * b.halfSize.z))

/-- Modelled from the spec: `OBB3f::Enlarge(margin)` (library code not under
src/) — grow each half-extent by the margin. -/
def enlargeBox (b : BoxROI) (m : ℚ) : BoxROI :=
  ⟨b.center, ⟨b.halfSize.x + m, b.halfSize.y + m, b.halfSize.z + m⟩⟩

/-- Modelled from the spec: `AABB3f::Set(points, size)` (library code not
under src/) — the tight axis-aligned bounding box: componentwise minimum and
maximum corner over the (non-empty) point list. -/
def aabbOfPoints (p : Point3) (rest : List Point3) : Point3 × Point3 :=
  rest.foldl (fun mm q =>
      (⟨min mm.1.x q.x, min mm.1.y q.y, min mm.1.z q.z⟩,
       ⟨max mm.2.x q.x, max mm.2.y q.y, max mm.2.z q.z⟩))
    (p, p)

/-- The oriented box whose corners are the given AABB corners (`OBB3f::Set`
of an AABB): center at the midpoint, half-extents half the diagonal. -/
def obbOfAABB (mm : Point3 × Point3) : BoxROI :=
  ⟨⟨(mm.1.x + mm.2.x) / 2, (mm.1.y + mm.2.y) / 2, (mm.1.z + mm.2.z) / 2⟩,
   ⟨(mm.2.x - mm.1.x) / 2, (mm.2.y - mm.1.y) / 2, (mm.2.z - mm.1.z) / 2⟩⟩

/-- The point list gathered by `Scene::SetROIFromSelection`: the selected
cloud points (bounds-checked) when the point cloud is non-empty, then the
vertices of the selected faces (face index and vertex indices
bounds-checked) when the mesh is non-empty. -/
def gatherSelectedPoints (s : GeomScene) (sel : SelSet) : List Point3 :=
  (if !s.points.isEmpty then
    (sel.selPoints.filter (fun i => i < s.points.length)).map
      (fun i => s.points.getD i pt0)
  else []) ++
  (if !s.vertices.isEmpty then
    (sel.selFaces.filter (fun i => i < s.faces.length)).flatMap (fun i =>
      let f := s.faces.getD i (0, 0, 0)
      ([f.1, f.2.1, f.2.2].filter (fun v => v < s.vertices.length)).map
        (fun v => s.vertices.getD v pt0))
  else [])

/-- `Scene::SetROIFromSelection(aabb)`: gather the selected geometry; if any,
fit a box (tight AABB when `aabb`, else the external 32-sample `OBB3f::Set`
fit summarized by the parameter `obbFit`), enlarge it by 3% of its largest
extent and install it as the scene ROI (`some box`); otherwise install
nothing (`none`). -/
def setROIFromSelection (aabb : Bool) (obbFit : List Point3 → BoxROI)
    (s : GeomScene) (sel : SelSet) : Option BoxROI :=
  if !s.isOpenScene then none
  else if !hasSelection sel then none
  else
    match gatherSelectedPoints s sel with
    | [] => none
    | p :: rest =>
        let fitted :=
          if aabb then obbOfAABB (aabbOfPoints p rest)
          else obbFit (p :: rest)
        some (enlargeBox fitted (maxExtent fitted * (3 / 100)))

/-!  Visibility-threshold sub-scene extraction (`Scene::CropToPoints`). -/

/-- The scene data `CropToPoints` reads: the number of images, the per-point
view lists (image indices observing each point), and the two validity flags
`scene.IsValid()` and `scene.pointcloud.IsValid()`. -/
structure PCScene where
  numImages : ℕ
  pointViews : List (List ℕ)
  sceneValid : Bool
  pcValid : Bool
deriving DecidableEq, Repr

/-- The view list of a point. -/
def viewsOf (s : PCScene) (p : ℕ) : List ℕ :=
  s.pointViews.getD p []

/-- The per-image observation counter built by `CropToPoints`: each listed
selected point increments the counter of every image in its view list (the
`unordered_map` counting loop). -/
def imageCount (s : PCScene) (sel : List ℕ) (i : ℕ) : ℕ :=
  (sel.map (fun p => (viewsOf s p).count i)).sum

/-- The key set of the counting map: every image observed by some listed
selected point, first occurrence order. -/
def observedImages (s : PCScene) (sel : List ℕ) : List ℕ :=
  (sel.flatMap (viewsOf s)).dedup

/-- The qualifying images: the counted images whose counter reaches
`minPoints`.  (The `unordered_map` iteration order is unspecified; the
embedding fixes first-occurrence order — the claims only concern the set.) -/
def selectedImageIndices (s : PCScene) (sel : List ℕ) (minPoints : ℕ) :
    List ℕ :=
  (observedImages s sel).filter (fun i => minPoints ≤ imageCount s sel i)

/-- `Scene::CropToPoints(selectedPointIndices, minPoints)`: `none` embeds the
empty `MVS::Scene()`, `some q` embeds `scene.SubScene(q)` for the non-empty
qualifying image list `q`. -/
def cropToPoints (s : PCScene) (sel : List ℕ) (minPoints : ℕ) :
    Option (List ℕ) :=
  if !(s.sceneValid && s.pcValid) then none
  else
    let q := selectedImageIndices s sel minPoints
    if q.length < 2 then none
    else if q.length = s.numImages then none
    else some q

/-- The spec-side counter: the number of (distinct) selected points the image
observes. -/
def specCount (s : PCScene) (sel : List ℕ) (i : ℕ) : ℕ :=
  (sel.filter (fun p => (viewsOf s p).contains i)).length

/-!  Viewer index search (`Scene::ImageIdxMVS2Viewer`). -/

/-- The backward search loop `while (i-- > 0) if (images[i].idx == idx)
return i;` starting the countdown at `n`. -/
def searchViewerIdx (l : List ℕ) (idx : ℕ) : ℕ → Option ℕ
  | 0 => none
  | i + 1 => if l.get? i = some idx then some i else searchViewerIdx l idx i

/-- `Scene::ImageIdxMVS2Viewer(idx)` over the list of per-viewer-image MVS
indices (`images[i].idx`): search backwards from `MINF(idx+1, images.size())`;
`none` embeds the `NO_ID` return. -/
def imageIdxMVS2Viewer (l : List ℕ) (idx : ℕ) : Option ℕ :=
  searchViewerIdx l idx (min (idx + 1) l.length)

/-!  Theorems. -/

/-- C7: the deferred image slot obeys its state machine: `SetImageLoading` on
a non-EMPTY slot fails its assertion; `AssignImage` on a non-LOADING slot
fails its assertion; `TransferImage` on a non-READY slot returns false and
leaves the slot unchanged; a successful transfer returns true and leaves the
slot EMPTY. -/
theorem c7_image_slot_state_machine (s : Slot) (b : ℕ) :
    (s ≠ Slot.EMPTY → s.setImageLoading = none) ∧
    (s ≠ Slot.LOADING → s.assignImage b = none) ∧
    (s.isReady = false → s.transferImage = (false, s)) ∧
    (∀ c, Slot.transferImage (Slot.READY c) = (true, Slot.EMPTY)) := by
  refine ⟨?_, ?_, ?_, fun c => rfl⟩ <;> cases s <;>
    simp [Slot.setImageLoading, Slot.assignImage, Slot.transferImage,
      Slot.isReady]

/-- Witness for C7 at concrete slots. -/
theorem c7_witness :
    Slot.setImageLoading Slot.LOADING = none ∧
    Slot.assignImage Slot.EMPTY 0 = none ∧
    Slot.transferImage Slot.LOADING = (false, Slot.LOADING) ∧
    Slot.transferImage (Slot.READY 5) = (true, Slot.EMPTY) :=
  ⟨(c7_image_slot_state_machine Slot.LOADING 0).1 (by decide),
   (c7_image_slot_state_machine Slot.EMPTY 0).2.1 (by decide),
   (c7_image_slot_state_machine Slot.LOADING 0).2.2.1 (by decide),
   (c7_image_slot_state_machine Slot.EMPTY 0).2.2.2 5⟩

/-- C8 counterexample: a failed background decode (no cached pixels, reload
fails) leaves the image slot in the LOADING state — it does not revert to
EMPTY as the claim states. -/
theorem c8_counterexample :
    (evtLoadImageRun false false 7 Slot.LOADING).1 = false ∧
    (evtLoadImageRun false false 7 Slot.LOADING).2 = Slot.LOADING ∧
    Slot.LOADING ≠ Slot.EMPTY := by
  refine ⟨rfl, rfl, by decide⟩

/-- C8 (amended): when a background image-decode job fails, the job returns
false; the worker loop discards the boolean result (it is not logged) and
continues processing subsequent jobs; the image slot is left unchanged — it
stays LOADING rather than reverting to EMPTY. -/
theorem c8_decode_failure (s : Slot) (hc hr : Bool) (b : ℕ)
    (h : hc = false ∧ hr = false) (rest : List WorkerEvent) :
    (evtLoadImageRun hc hr b s).1 = false ∧
    (evtLoadImageRun hc hr b s).2 = s ∧
    (threadWorker (WorkerEvent.JOB (evtLoadImageRun hc hr b) :: rest) s).2 =
      (threadWorker rest s).2 + 1 := by
  obtain ⟨h1, h2⟩ := h
  subst h1; subst h2
  refine ⟨rfl, rfl, ?_⟩
  simp [threadWorker, evtLoadImageRun]

/-- Witness for C8 (amended) at a concrete failing job. -/
theorem c8_witness :
    (evtLoadImageRun false false 9 Slot.LOADING).1 = false ∧
    (evtLoadImageRun false false 9 Slot.LOADING).2 = Slot.LOADING ∧
    (threadWorker [WorkerEvent.JOB (evtLoadImageRun false false 9)]
        Slot.LOADING).2 =
      (threadWorker [] Slot.LOADING).2 + 1 :=
  c8_decode_failure Slot.LOADING false false 9 ⟨rfl, rfl⟩ []

/-!  C10 lemmas: the backward search of `ImageIdxMVS2Viewer`. -/

theorem searchViewerIdx_some {l : List ℕ} {idx : ℕ} :
    ∀ {n i}, searchViewerIdx l idx n = some i →
      i < n ∧ l.get? i = some idx := by
  intro n
  induction n with
  | zero => intro i h; simp [searchViewerIdx] at h
  | succ k ih =>
    intro i h
    simp only [searchViewerIdx] at h
    by_cases hc : l.get? k = some idx
    · rw [if_pos hc] at h
      cases h
      exact ⟨Nat.lt_succ_self _, hc⟩
    · rw [if_neg hc] at h
      obtain ⟨h1, h2⟩ := ih h
      exact ⟨Nat.lt_succ_of_lt h1, h2⟩

theorem searchViewerIdx_isSome {l : List ℕ} {idx i : ℕ}
    (hget : l.get? i = some idx) :
    ∀ {n}, i < n → (searchViewerIdx l idx n).isSome := by
  intro n
  induction n with
  | zero => intro h; exact absurd h (Nat.not_lt_zero i)
  | succ k ih =>
    intro h
    simp only [searchViewerIdx]
    by_cases hc : l.get? k = some idx
    · rw [if_pos hc]; rfl
    · rw [if_neg hc]
      apply ih
      rcases Nat.lt_succ_iff_lt_or_eq.mp h with h' | h'
      · exact h'
      · subst h'; exact absurd hget hc

theorem pairwise_lt_le_get {l : List ℕ} (hp : l.Pairwise (· < ·)) :
    ∀ i idx, l.get? i = some idx → i ≤ idx := by
  intro i
  induction i with
  | zero => intro idx _; exact Nat.zero_le idx
  | succ k ih =>
    intro idx hg
    obtain ⟨hlen, hval⟩ := List.get?_eq_some.mp hg
    have hklen : k < l.length := Nat.lt_of_succ_lt hlen
    have hak : l.get? k = some (l.get ⟨k, hklen⟩) := List.get?_eq_get hklen
    have h1 : k ≤ l.get ⟨k, hklen⟩ := ih _ hak
    have h2 : l.get ⟨k, hklen⟩ < l.get ⟨k + 1, hlen⟩ :=
      List.pairwise_iff_get.mp hp ⟨k, hklen⟩ ⟨k + 1, hlen⟩ (by
        simp [Fin.lt_def])
    rw [hval] at h2
    omega

theorem pairwise_lt_get_inj {l : List ℕ} (hp : l.Pairwise (· < ·))
    {i j idx : ℕ} (hi : l.get? i = some idx) (hj : l.get? j = some idx) :
    i = j := by
  obtain ⟨hil, hiv⟩ := List.get?_eq_some.mp hi
  obtain ⟨hjl, hjv⟩ := List.get?_eq_some.mp hj
  rcases lt_trichotomy i j with h | h | h
  · have := List.pairwise_iff_get.mp hp ⟨i, hil⟩ ⟨j, hjl⟩ (by
      simp [Fin.lt_def, h])
    rw [hiv, hjv] at this
    exact absurd this (lt_irrefl idx)
  · exact h
  · have := List.pairwise_iff_get.mp hp ⟨j, hjl⟩ ⟨i, hil⟩ (by
      simp [Fin.lt_def, h])
    rw [hiv, hjv] at this
    exact absurd this (lt_irrefl idx)

/-- C10: under the invariant that the viewer image list stores MVS indices in
strictly increasing order (it is a subsequence of the MVS images), the
backward search of `ImageIdxMVS2Viewer` starting at `min(idx+1, size)` is
correct: it returns the viewer index holding `idx` when one exists, and
`NO_ID` (here `none`) otherwise. -/
theorem c10_imageIdx_correct (l : List ℕ) (idx : ℕ)
    (hp : l.Pairwise (· < ·)) :
    (∀ i, imageIdxMVS2Viewer l idx = some i ↔ l.get? i = some idx) ∧
    (imageIdxMVS2Viewer l idx = none ↔ ∀ i, l.get? i ≠ some idx) := by
  have hfwd : ∀ i, imageIdxMVS2Viewer l idx = some i → l.get? i = some idx :=
    fun i h => (searchViewerIdx_some h).2
  have hbwd : ∀ i, l.get? i = some idx → imageIdxMVS2Viewer l idx = some i := by
    intro i h
    have hle : i ≤ idx := pairwise_lt_le_get hp i idx h
    have hlen : i < l.length := (List.get?_eq_some.mp h).1
    have hlt : i < min (idx + 1) l.length := by omega
    have hs : (searchViewerIdx l idx (min (idx + 1) l.length)).isSome :=
      searchViewerIdx_isSome h hlt
    obtain ⟨j, hj⟩ := Option.isSome_iff_exists.mp hs
    have hj2 : l.get? j = some idx := (searchViewerIdx_some hj).2
    have hij : j = i := pairwise_lt_get_inj hp hj2 h
    subst hij
    exact hj
  constructor
  · exact fun i => ⟨hfwd i, hbwd i⟩
  · constructor
    · intro hn i hcon
      rw [hbwd i hcon] at hn
      exact Option.noConfusion hn
    · intro hall
      cases hres : imageIdxMVS2Viewer l idx with
      | none => rfl
      | some j => exact absurd (hfwd j hres) (hall j)

/-- Witness for C10 on the viewer list `[0, 2, 3]` of MVS indices. -/
theorem c10_witness :
    ([0, 2, 3] : List ℕ).Pairwise (· < ·) ∧
    (imageIdxMVS2Viewer [0, 2, 3] 2 = some 1 ↔
      ([0, 2, 3] : List ℕ).get? 1 = some 2) :=
  ⟨by decide, (c10_imageIdx_correct [0, 2, 3] 2 (by decide)).1 1⟩

/-!  C1 lemmas: the strictly-closer replacement discipline. -/

theorem resolveCamerasAux_no_replace {d : ℚ} :
    ∀ (cams : List (Option ℚ × Point3)) (k : ℕ) (t : Tentative),
      t.minDist = some d →
      (∀ c ∈ cams, ∀ dc, c.1 = some dc → d ≤ dc) →
      resolveCamerasAux k cams t = t := by
  intro cams
  induction cams with
  | nil => intro k t _ _; rfl
  | cons c rest ih =>
    intro k t hmin hall
    simp only [resolveCamerasAux]
    have hstep :
        (match c.1 with
         | some dc =>
             if ltMinDist dc t.minDist then
               (⟨Sel.CAMERA, k, (c.2, t.pts.2.1, t.pts.2.2.1, c.2),
                 some dc⟩ : Tentative)
             else t
         | none => t) = t := by
      cases hc1 : c.1 with
      | none => rfl
      | some dc =>
        have hle : d ≤ dc := hall c (List.mem_cons_self c rest) dc hc1
        have hfalse : ltMinDist dc t.minDist = false := by
          rw [hmin]
          simp only [ltMinDist, decide_eq_false_iff_not, not_lt]
          exact hle
        simp [hfalse]
    rw [hstep]
    exact ih (k + 1) t hmin (fun c' hc' => hall c' (List.mem_cons_of_mem _ hc'))

theorem resolvePoints_no_replace (inp : RayInput) (t : Tentative) (d : ℚ)
    (hmin : t.minDist = some d)
    (hpt : ∀ j d' p, inp.pointHit = some (j, d', p) → d ≤ d') :
    resolvePoints inp t = t := by
  cases hs : (inp.showPointCloud && !inp.octPointsEmpty) with
  | false => simp [resolvePoints, hs]
  | true =>
    cases hp : inp.pointHit with
    | none => simp [resolvePoints, hs, hp]
    | some jdp =>
      obtain ⟨j, d', p⟩ := jdp
      have hle : d ≤ d' := hpt j d' p hp
      have hfalse : ltMinDist d' t.minDist = false := by
        rw [hmin]
        simp only [ltMinDist, decide_eq_false_iff_not, not_lt]
        exact hle
      simp [resolvePoints, hs, hp, hfalse]

/-- C1: the pick resolver evaluates mesh, then points, then cameras, and a
later candidate only replaces the tentative selection when its distance is
strictly smaller.  Hence for a mesh hit at distance `d`: if neither the point
hit nor any camera hit is strictly closer, the mesh triangle is selected
(ties go to the mesh); and a point hit that is strictly closer, with no
camera at or below its distance, replaces it (ties between point and camera
go to the point). -/
theorem c1_pick_priority (inp : RayInput) (i : ℕ) (d : ℚ)
    (v0 v1 v2 : Point3)
    (hsm : inp.showMesh = true) (hoe : inp.octMeshEmpty = false)
    (hmesh : inp.meshHit = some (i, d, (v0, v1, v2))) :
    ((∀ j d' p, inp.pointHit = some (j, d', p) → d ≤ d') →
     (∀ c ∈ inp.cameraHits, ∀ dc, c.1 = some dc → d ≤ dc) →
      resolvePick inp =
        ⟨Sel.TRIANGLE, i, (v0, v1, v2, inp.rayAt d), some d⟩) ∧
    (∀ j d' p, inp.pointHit = some (j, d', p) →
      inp.showPointCloud = true → inp.octPointsEmpty = false → d' < d →
      (∀ c ∈ inp.cameraHits, ∀ dc, c.1 = some dc → d' ≤ dc) →
      resolvePick inp = ⟨Sel.POINT, j, (p, v1, v2, p), some d'⟩) := by
  have hm : resolveMesh inp =
      ⟨Sel.TRIANGLE, i, (v0, v1, v2, inp.rayAt d), some d⟩ := by
    simp [resolveMesh, hsm, hoe, hmesh]
  constructor
  · intro hpt hcam
    have hpts : resolvePoints inp (resolveMesh inp) = resolveMesh inp :=
      resolvePoints_no_replace inp _ d (by rw [hm]) hpt
    unfold resolvePick
    rw [hpts, hm]
    exact resolveCamerasAux_no_replace inp.cameraHits 0 _ rfl hcam
  · intro j d' p hp hsp hop hlt hcam
    have hptres : resolvePoints inp (resolveMesh inp) =
        ⟨Sel.POINT, j, (p, v1, v2, p), some d'⟩ := by
      have htrue : ltMinDist d' (some d) = true := by
        simp only [ltMinDist, decide_eq_true_eq]
        exact hlt
      rw [hm]
      simp [resolvePoints, hsp, hop, hp, htrue]
    unfold resolvePick
    rw [hptres]
    exact resolveCamerasAux_no_replace inp.cameraHits 0 _ rfl hcam

/-- A concrete click input where the mesh triangle, the point and the camera
all lie at distance 1 along the ray. -/
def inpC1 : RayInput :=
  { now := 0, altMod := false, ctrlMod := false,
    showMesh := true, showPointCloud := true,
    octMeshEmpty := false, octPointsEmpty := false,
    meshHit := some (3, 1, (pt0, pt0, pt0)),
    pointHit := some (7, 1, pt0),
    cameraHits := [(some 1, pt0)],
    rayAt := fun _ => pt0 }

/-- Witness for C1: at three equidistant candidates the mesh triangle wins. -/
theorem c1_witness :
    resolvePick inpC1 = ⟨Sel.TRIANGLE, 3, (pt0, pt0, pt0, pt0), some 1⟩ :=
  (c1_pick_priority inpC1 3 1 pt0 pt0 pt0 rfl rfl rfl).1
    (by intro j d' p h; cases h; norm_num)
    (by
      intro c hc dc hdc
      simp only [inpC1, List.mem_singleton] at hc
      subst hc
      simp only at hdc
      cases hdc
      norm_num)

/-- C3: on RELEASE, a press older than 0.2 s is ignored (no pick, no state
change, no effects); otherwise, with a non-NONE selection changed less than
0.3 s ago, it is a double action: camera-view mode for a CAMERA selection, a
center request on the stored focus point otherwise; only the last-selection
timestamp changes (the index is untouched) and the ray is not re-resolved. -/
theorem c3_click_state_machine (st : WinState) (inp : RayInput) :
    (timeClick < inp.now - st.selectionTimeClick →
      onCastRay true st PtrAction.RELEASE inp = (st, [])) ∧
    (inp.now - st.selectionTimeClick ≤ timeClick →
     st.selectionType ≠ Sel.NA →
     inp.now - st.selectionTime < timeDblClick →
      onCastRay true st PtrAction.RELEASE inp =
        ({st with selectionTime := inp.now},
         if st.selectionType = Sel.CAMERA then
           [Effect.SetCameraViewMode st.selectionIdx]
         else
           [Effect.DisableCameraViewMode,
            Effect.CenterScene st.selectionPoints.2.2.2])) := by
  constructor
  · intro h
    show onCastRayRelease st inp = (st, [])
    unfold onCastRayRelease
    rw [if_pos h]
  · intro h1 h2 h3
    have hn : ¬(timeClick < inp.now - st.selectionTimeClick) := not_lt.mpr h1
    show onCastRayRelease st inp = _
    unfold onCastRayRelease
    rw [if_neg hn, if_pos ⟨h2, h3⟩]
    by_cases hc : st.selectionType = Sel.CAMERA
    · rw [if_pos hc, if_pos hc]
    · rw [if_neg hc, if_neg hc]

/-- C9 (amended): for a short single click resolving a tentative CAMERA pick:
with alt held, camera-view mode is entered on that camera and the whole
Selection Record (kind, index, points, timestamp, neighbor index) is left as
it was; with ctrl held (alt not held), the neighbor-camera index is set to
the tentative camera and the selection index, points and timestamp are left
unchanged — but the selection kind is set to CAMERA rather than restored to
its previous value. -/
theorem c9_camera_modifier_clicks (st : WinState) (inp : RayInput)
    (hshort : inp.now - st.selectionTimeClick ≤ timeClick)
    (hnodbl : ¬(st.selectionType ≠ Sel.NA ∧
      inp.now - st.selectionTime < timeDblClick))
    (hcam : (resolvePick inp).selType = Sel.CAMERA) :
    (inp.altMod = true →
      onCastRay true st PtrAction.RELEASE inp =
        (st, Effect.SetCameraViewMode (resolvePick inp).idx ::
          (if st.selectionType = Sel.NA then []
           else [Effect.UploadSelection, Effect.RequestRedraw]))) ∧
    (inp.altMod = false → inp.ctrlMod = true →
      onCastRay true st PtrAction.RELEASE inp =
        ({st with selectionType := Sel.CAMERA,
                  selectedNeighborCamera := some (resolvePick inp).idx},
         [Effect.UploadSelection, Effect.RequestRedraw])) := by
  have hn : ¬(timeClick < inp.now - st.selectionTimeClick) := not_lt.mpr hshort
  constructor
  · intro halt
    show onCastRayRelease st inp = _
    unfold onCastRayRelease
    rw [if_neg hn, if_neg hnodbl]
    by_cases hna : st.selectionType = Sel.NA
    · simp [hcam, halt, hna]
      rw [← hna]
    · simp [hcam, halt, hna]
  · intro halt hctrl
    show onCastRayRelease st inp = _
    unfold onCastRayRelease
    rw [if_neg hn, if_neg hnodbl]
    simp [hcam, halt, hctrl]

/-- A concrete selection state: a POINT selection with index 5, focus point
(1,2,3), selected at time 10, last press at time 20. -/
def stSelPoint : WinState :=
  { selectionType := Sel.POINT, selectionIdx := 5,
    selectionPoints := (pt0, pt0, pt0, ⟨1, 2, 3⟩),
    selectionTime := 10, selectionTimeClick := 20,
    selectedNeighborCamera := none }

/-- A concrete click input at time `now`: no mesh or point hit, one visible
camera (viewer index 0) at distance 1. -/
def mkInp (now : ℚ) (alt ctrl : Bool) : RayInput :=
  { now := now, altMod := alt, ctrlMod := ctrl,
    showMesh := true, showPointCloud := true,
    octMeshEmpty := false, octPointsEmpty := false,
    meshHit := none, pointHit := none,
    cameraHits := [(some 1, pt0)],
    rayAt := fun _ => pt0 }

/-- Witness for C3: a release 1 s after the press is ignored; a release
0.2 s after the last selection of a POINT is a double action centering on
the stored focus point, leaving the index untouched. -/
theorem c3_witness :
    onCastRay true stSelPoint PtrAction.RELEASE (mkInp 21 false false) =
      (stSelPoint, []) ∧
    onCastRay true stSelPoint PtrAction.RELEASE
        (mkInp (102 / 10) false false) =
      ({stSelPoint with selectionTime := 102 / 10},
       [Effect.DisableCameraViewMode, Effect.CenterScene ⟨1, 2, 3⟩]) := by
  constructor
  · exact (c3_click_state_machine stSelPoint (mkInp 21 false false)).1
      (by norm_num [mkInp, stSelPoint, timeClick])
  · have h := (c3_click_state_machine stSelPoint
      (mkInp (102 / 10) false false)).2
      (by norm_num [mkInp, stSelPoint, timeClick])
      (by decide)
      (by norm_num [mkInp, stSelPoint, timeDblClick])
    simpa [mkInp, stSelPoint] using h

/-- Witness for C9 (amended): an alt-click on the camera leaves the whole
record untouched and enters camera-view mode. -/
theorem c9_witness :
    onCastRay true stSelPoint PtrAction.RELEASE (mkInp (201 / 10) true false) =
      (stSelPoint,
       [Effect.SetCameraViewMode 0, Effect.UploadSelection,
        Effect.RequestRedraw]) := by
  have h := (c9_camera_modifier_clicks stSelPoint
      (mkInp (201 / 10) true false)
      (by norm_num [mkInp, stSelPoint, timeClick])
      (by norm_num [mkInp, stSelPoint, timeDblClick]) rfl).1 rfl
  simpa [mkInp, stSelPoint] using h

/-- C9 counterexample: a ctrl-click resolving a camera changes the Selection
Record's kind from POINT to CAMERA — the primary Selection Record is not
left unchanged as the claim states. -/
theorem c9_counterexample :
    (onCastRay true stSelPoint PtrAction.RELEASE
        (mkInp (201 / 10) false true)).1.selectionType = Sel.CAMERA ∧
    stSelPoint.selectionType = Sel.POINT ∧ Sel.CAMERA ≠ Sel.POINT := by
  have h1 : ¬(timeClick <
      (mkInp (201 / 10) false true).now - stSelPoint.selectionTimeClick) := by
    norm_num [mkInp, stSelPoint, timeClick]
  have h2 : ¬(stSelPoint.selectionType ≠ Sel.NA ∧
      (mkInp (201 / 10) false true).now - stSelPoint.selectionTime <
        timeDblClick) := by
    norm_num [mkInp, stSelPoint, timeDblClick]
  refine ⟨?_, rfl, by decide⟩
  show (onCastRayRelease stSelPoint
    (mkInp (201 / 10) false true)).1.selectionType = Sel.CAMERA
  unfold onCastRayRelease
  rw [if_neg h1, if_neg h2]
  simp [resolvePick, resolveMesh, resolvePoints, resolveCameras,
    resolveCamerasAux, mkInp, stSelPoint, ltMinDist]

/-- A non-empty open, bounded scene: one point, no mesh. -/
def sceneC4 : GeomScene := ⟨[pt0], [], [], true, true⟩

/-- C4: `CropToBounds` on an open, bounded scene removes geometry (here the
ROI test keeps nothing, so the point is discarded) yet enqueues no octree
rebuild job — unlike the load path (`sceneOpenJobs`) and the deletion path
(`UpdateGeometryAfterModification`), which both enqueue the rebuild on the
same non-empty scene.  This contradicts the claim (and the spec's
rebuild-on-mutation invariant): the octrees keep indices into the removed
geometry. -/
theorem c4_crop_no_rebuild_job :
    (cropToBounds (fun _ => false) sceneC4).1.points = [] ∧
    sceneC4.points = [pt0] ∧
    (cropToBounds (fun _ => false) sceneC4).2.1 = [] ∧
    sceneOpenJobs sceneC4 = [Job.ComputeOctree] ∧
    (updateGeometryAfterModification sceneC4).1 = [Job.ComputeOctree] :=
  ⟨rfl, rfl, rfl, rfl, rfl⟩

/-- C5 (amended): with a non-empty Selection Set (whose non-empty index lists
point into non-empty collections), `RemoveSelectedGeometry` deletes the
selected points and faces (each independently, when its list is non-empty),
leaves the Selection Set empty, and re-enqueues a spatial-index rebuild job
provided the scene still holds geometry (when the removal emptied the scene,
the octrees are only released and no rebuild is enqueued); with an empty
Selection Set it changes nothing. -/
theorem c5_removeSelected_state (s : GeomScene) (sel : SelSet)
    (hsel : hasSelection sel = true)
    (hpts : sel.selPoints ≠ [] → s.points ≠ [])
    (hfcs : sel.selFaces ≠ [] → s.vertices ≠ []) :
    (removeSelectedGeometry s sel).2.1 = emptySel ∧
    (sceneIsEmpty (removeSelectedGeometry s sel).1 = false →
      (removeSelectedGeometry s sel).2.2.1 = [Job.ComputeOctree]) ∧
    (sceneIsEmpty (removeSelectedGeometry s sel).1 = true →
      (removeSelectedGeometry s sel).2.2.1 = []) ∧
    (sel.selPoints ≠ [] →
      (removeSelectedGeometry s sel).1.points =
        removeIndices s.points sel.selPoints) ∧
    (sel.selFaces ≠ [] →
      (removeSelectedGeometry s sel).1.faces =
        removeIndices s.faces sel.selFaces) ∧
    (∀ s2 sel2, hasSelection sel2 = false →
      removeSelectedGeometry s2 sel2 = (s2, sel2, [], [])) := by
  have hnoop : ∀ s2 sel2, hasSelection sel2 = false →
      removeSelectedGeometry s2 sel2 = (s2, sel2, [], []) := by
    intro s2 sel2 h
    unfold removeSelectedGeometry
    rw [h]
    simp
  by_cases hP : sel.selPoints = []
  · by_cases hF : sel.selFaces = []
    · exfalso
      simp [hasSelection, hP, hF] at hsel
    · have hV : s.vertices ≠ [] := hfcs hF
      have e1 : sel.selPoints.isEmpty = true := by simp [hP]
      have e2 : sel.selFaces.isEmpty = false := by
        simp [List.isEmpty_iff, hF]
      have e3 : s.vertices.isEmpty = false := by
        simp [List.isEmpty_iff, hV]
      refine ⟨?_, ?_, ?_, fun h => absurd h (by simp [hP]), ?_, hnoop⟩ <;>
        simp [removeSelectedGeometry, hsel, e1, e2, e3,
          updateGeometryAfterModification]
  · have hPts : s.points ≠ [] := hpts hP
    have e1 : sel.selPoints.isEmpty = false := by
      simp [List.isEmpty_iff, hP]
    have e4 : s.points.isEmpty = false := by
      simp [List.isEmpty_iff, hPts]
    by_cases hF : sel.selFaces = []
    · have e2 : sel.selFaces.isEmpty = true := by simp [hF]
      refine ⟨?_, ?_, ?_, ?_, fun h => absurd h (by simp [hF]), hnoop⟩ <;>
        simp [removeSelectedGeometry, hsel, e1, e2, e4,
          updateGeometryAfterModification]
    · have hV : s.vertices ≠ [] := hfcs hF
      have e2 : sel.selFaces.isEmpty = false := by
        simp [List.isEmpty_iff, hF]
      have e3 : s.vertices.isEmpty = false := by
        simp [List.isEmpty_iff, hV]
      refine ⟨?_, ?_, ?_, ?_, ?_, hnoop⟩ <;>
        simp [removeSelectedGeometry, hsel, e1, e2, e3, e4,
          updateGeometryAfterModification]

/-!  C2 lemmas: the counting map versus the spec-side counter. -/

/-- The spec-side qualifying set: the images of the scene whose count of
observed selected points reaches `minPoints` (stated over all image indices,
as the spec words it). -/
def specQualifying (s : PCScene) (sel : List ℕ) (minPoints : ℕ) : List ℕ :=
  (List.range s.numImages).filter
    (fun i => decide (minPoints ≤ specCount s sel i))

theorem viewsOf_nodup (s : PCScene) (hvnd : ∀ l ∈ s.pointViews, l.Nodup)
    (p : ℕ) : (viewsOf s p).Nodup := by
  unfold viewsOf
  rcases Nat.lt_or_ge p s.pointViews.length with h | h
  · rw [List.getD_eq_getElem _ _ h]
    exact hvnd _ (List.getElem_mem h)
  · rw [List.getD_eq_default _ _ h]
    exact List.nodup_nil

theorem viewsOf_bounded (s : PCScene)
    (hvb : ∀ l ∈ s.pointViews, ∀ i ∈ l, i < s.numImages)
    (p : ℕ) : ∀ i ∈ viewsOf s p, i < s.numImages := by
  unfold viewsOf
  rcases Nat.lt_or_ge p s.pointViews.length with h | h
  · rw [List.getD_eq_getElem _ _ h]
    exact hvb _ (List.getElem_mem h)
  · rw [List.getD_eq_default _ _ h]
    intro i hi
    exact absurd hi (List.not_mem_nil i)

theorem imageCount_eq_specCount (s : PCScene) (sel : List ℕ) (i : ℕ)
    (hvnd : ∀ l ∈ s.pointViews, l.Nodup) :
    imageCount s sel i = specCount s sel i := by
  induction sel with
  | nil => rfl
  | cons p tl ih =>
    have hnd : (viewsOf s p).Nodup := viewsOf_nodup s hvnd p
    by_cases hm : i ∈ viewsOf s p
    · have hc : (viewsOf s p).count i = 1 := List.count_eq_one_of_mem hnd hm
      simp [imageCount, specCount, List.filter_cons, hm, hc] at ih ⊢
      omega
    · have hc : (viewsOf s p).count i = 0 := by
        simpa [List.count_eq_zero] using hm
      simp [imageCount, specCount, List.filter_cons, hm, hc] at ih ⊢
      omega

theorem mem_observedImages (s : PCScene) (sel : List ℕ) (i : ℕ) :
    i ∈ observedImages s sel ↔ 1 ≤ specCount s sel i := by
  have hlp : ∀ (l : List ℕ), 0 < l.length ↔ ∃ a, a ∈ l := by
    intro l; cases l <;> simp
  unfold observedImages specCount
  rw [List.mem_dedup, List.mem_flatMap]
  constructor
  · rintro ⟨p, hp, hip⟩
    have : p ∈ sel.filter (fun p => (viewsOf s p).contains i) := by
      rw [List.mem_filter]
      exact ⟨hp, by simpa [List.elem_iff] using hip⟩
    exact (hlp _).mpr ⟨p, this⟩
  · intro h
    obtain ⟨p, hp⟩ :=
      (hlp (sel.filter fun p => (viewsOf s p).contains i)).mp (by omega)
    rw [List.mem_filter] at hp
    exact ⟨p, hp.1, by simpa [List.elem_iff] using hp.2⟩

theorem mem_selectedImageIndices (s : PCScene) (sel : List ℕ)
    (minPoints i : ℕ) (hm : 1 ≤ minPoints)
    (hvnd : ∀ l ∈ s.pointViews, l.Nodup) :
    i ∈ selectedImageIndices s sel minPoints ↔
      minPoints ≤ specCount s sel i := by
  unfold selectedImageIndices
  rw [List.mem_filter, mem_observedImages,
    imageCount_eq_specCount s sel i hvnd]
  constructor
  · rintro ⟨_, h⟩
    simpa using h
  · intro h
    exact ⟨by omega, by simpa using h⟩

theorem selectedImageIndices_perm (s : PCScene) (sel : List ℕ)
    (minPoints : ℕ) (hm : 1 ≤ minPoints)
    (hvnd : ∀ l ∈ s.pointViews, l.Nodup)
    (hvb : ∀ l ∈ s.pointViews, ∀ i ∈ l, i < s.numImages) :
    (selectedImageIndices s sel minPoints).Perm
      (specQualifying s sel minPoints) := by
  apply (List.perm_ext_iff_of_nodup ?_ ?_).mpr
  · intro i
    rw [mem_selectedImageIndices s sel minPoints i hm hvnd]
    unfold specQualifying
    rw [List.mem_filter, List.mem_range]
    constructor
    · intro h
      refine ⟨?_, by simpa using h⟩
      have h1 : 1 ≤ specCount s sel i := le_trans hm h
      have := (mem_observedImages s sel i).mpr h1
      unfold observedImages at this
      rw [List.mem_dedup, List.mem_flatMap] at this
      obtain ⟨p, _, hip⟩ := this
      exact viewsOf_bounded s hvb p i hip
    · rintro ⟨_, h⟩
      simpa using h
  · exact (List.nodup_dedup _).filter _
  · exact (List.nodup_range _).filter _

/-- C2 (amended): for `minPoints ≥ 1`, on a valid scene with a valid point
cloud (no duplicate selected indices, view lists duplicate-free, in range and
pointing at valid images), `CropToPoints` returns the empty scene iff fewer
than 2 images, or all images of the scene, reach an observation count of at
least `minPoints`; otherwise it returns the sub-scene of exactly the images
whose count reaches `minPoints`.  (For `minPoints = 0` the map-based counting
of the code only considers images observing at least one selected point, so
the claim fails; see the counterexample.) -/
theorem c2_cropToPoints_threshold (s : PCScene) (sel : List ℕ)
    (minPoints : ℕ) (hv1 : s.sceneValid = true) (hv2 : s.pcValid = true)
    (hm : 1 ≤ minPoints) (_hnd : sel.Nodup)
    (_hpv : ∀ p ∈ sel, p < s.pointViews.length)
    (hvnd : ∀ l ∈ s.pointViews, l.Nodup)
    (hvb : ∀ l ∈ s.pointViews, ∀ i ∈ l, i < s.numImages) :
    (cropToPoints s sel minPoints = none ↔
      (specQualifying s sel minPoints).length < 2 ∨
      (specQualifying s sel minPoints).length = s.numImages) ∧
    (∀ L, cropToPoints s sel minPoints = some L →
      ∀ i, i ∈ L ↔ i ∈ specQualifying s sel minPoints) := by
  have hperm := selectedImageIndices_perm s sel minPoints hm hvnd hvb
  have hlen := hperm.length_eq
  unfold cropToPoints
  rw [hv1, hv2]
  simp only [Bool.and_self, Bool.not_true, Bool.false_eq_true, if_false]
  constructor
  · by_cases h1 : (selectedImageIndices s sel minPoints).length < 2
    · simp [h1, hlen ▸ h1]
    · rw [if_neg h1]
      by_cases h2 : (selectedImageIndices s sel minPoints).length =
          s.numImages
      · simp [h2, hlen ▸ h2]
      · simp [h2]
        omega
  · intro L hL i
    by_cases h1 : (selectedImageIndices s sel minPoints).length < 2
    · rw [if_pos h1] at hL
      exact absurd hL (by simp)
    · rw [if_neg h1] at hL
      by_cases h2 : (selectedImageIndices s sel minPoints).length =
          s.numImages
      · rw [if_pos h2] at hL
        exact absurd hL (by simp)
      · rw [if_neg h2] at hL
        have : L = selectedImageIndices s sel minPoints :=
          (Option.some.injEq _ _ ▸ hL).symm
        rw [this]
        exact hperm.mem_iff

/-- C5 counterexample: a non-empty Selection Set covering the only point of a
mesh-less scene: the deletion empties the scene, the Selection Set is cleared,
but no spatial-index rebuild job is enqueued (the claim asserts one always
is). -/
theorem c5_counterexample :
    hasSelection ⟨[0], []⟩ = true ∧
    (removeSelectedGeometry sceneC4 ⟨[0], []⟩).1.points = [] ∧
    (removeSelectedGeometry sceneC4 ⟨[0], []⟩).2.1 = emptySel ∧
    (removeSelectedGeometry sceneC4 ⟨[0], []⟩).2.2.1 = [] :=
  ⟨rfl, rfl, rfl, rfl⟩

/-- A two-point scene: deleting point 0 leaves geometry behind. -/
def sceneC5 : GeomScene := ⟨[pt0, ⟨1, 1, 1⟩], [], [], true, true⟩

/-- Witness for C5 (amended): deleting one of two points clears the Selection
Set and re-enqueues the rebuild job. -/
theorem c5_witness :
    (removeSelectedGeometry sceneC5 ⟨[0], []⟩).2.1 = emptySel ∧
    (removeSelectedGeometry sceneC5 ⟨[0], []⟩).2.2.1 = [Job.ComputeOctree] := by
  have h := c5_removeSelected_state sceneC5 ⟨[0], []⟩ rfl
    (fun _ => by simp [sceneC5]) (fun hf => absurd rfl hf)
  exact ⟨h.1, h.2.1 rfl⟩

/-- C6 (amended): with a selection gathering a non-empty point list, the
fitted box (tight AABB, or the external OBB fit) is enlarged by exactly 3% of
its largest extent before being installed as the ROI.  In particular a single
selected point yields a fitted box of zero extent, a zero margin, and hence
an installed ROI that is exactly zero-sized. -/
theorem c6_roi_margin (aabb : Bool) (obbFit : List Point3 → BoxROI)
    (s : GeomScene) (sel : SelSet)
    (hopen : s.isOpenScene = true) (hsel : hasSelection sel = true)
    (p : Point3) (rest : List Point3)
    (hg : gatherSelectedPoints s sel = p :: rest) :
    setROIFromSelection aabb obbFit s sel =
      some (enlargeBox
        (if aabb then obbOfAABB (aabbOfPoints p rest) else obbFit (p :: rest))
        (maxExtent (if aabb then obbOfAABB (aabbOfPoints p rest)
          else obbFit (p :: rest)) * (3 / 100))) ∧
    (aabb = true → rest = [] →
      setROIFromSelection aabb obbFit s sel =
        some ⟨p, ⟨0, 0, 0⟩⟩ ∧ maxExtent ⟨p, ⟨0, 0, 0⟩⟩ = 0) := by
  have hmain : setROIFromSelection aabb obbFit s sel =
      some (enlargeBox
        (if aabb then obbOfAABB (aabbOfPoints p rest) else obbFit (p :: rest))
        (maxExtent (if aabb then obbOfAABB (aabbOfPoints p rest)
          else obbFit (p :: rest)) * (3 / 100))) := by
    simp [setROIFromSelection, hopen, hsel, hg]
  refine ⟨hmain, ?_⟩
  rintro rfl rfl
  have hfit : obbOfAABB (aabbOfPoints p []) = ⟨p, ⟨0, 0, 0⟩⟩ := by
    obtain ⟨x, y, z⟩ := p
    simp only [aabbOfPoints, List.foldl_nil, obbOfAABB, BoxROI.mk.injEq,
      Point3.mk.injEq]
    refine ⟨⟨by ring, by ring, by ring⟩, by ring, by ring, by ring⟩
  have hext : maxExtent (⟨p, ⟨0, 0, 0⟩⟩ : BoxROI) = 0 := by
    simp [maxExtent]
  rw [hmain]
  simp only [if_true, hfit, hext, enlargeBox, zero_mul, mul_zero]
  norm_num

/-- A scene holding the single point (1,2,3). -/
def sceneC6 : GeomScene := ⟨[⟨1, 2, 3⟩], [], [], true, true⟩

/-- C6 counterexample: fitting the axis-aligned ROI to the single selected
point (1,2,3) installs a box whose half-extents are all zero — an exactly
zero-sized box, contradicting the claim that the installed box is never
exactly zero-sized. -/
theorem c6_counterexample :
    setROIFromSelection true (fun _ => ⟨pt0, pt0⟩) sceneC6 ⟨[0], []⟩ =
      some ⟨⟨1, 2, 3⟩, ⟨0, 0, 0⟩⟩ ∧
    maxExtent ⟨⟨1, 2, 3⟩, ⟨0, 0, 0⟩⟩ = 0 := by
  constructor
  · have hg : gatherSelectedPoints sceneC6 ⟨[0], []⟩ =
        [(⟨1, 2, 3⟩ : Point3)] := rfl
    have h : setROIFromSelection true (fun _ => ⟨pt0, pt0⟩) sceneC6
        ⟨[0], []⟩ =
        some (enlargeBox (obbOfAABB (aabbOfPoints ⟨1, 2, 3⟩ []))
          (maxExtent (obbOfAABB (aabbOfPoints ⟨1, 2, 3⟩ [])) * (3 / 100))) := by
      simp [setROIFromSelection, hg,
        show sceneC6.isOpenScene = true from rfl,
        show hasSelection ⟨[0], []⟩ = true from rfl]
    rw [h]
    have hfit : obbOfAABB (aabbOfPoints (⟨1, 2, 3⟩ : Point3) []) =
        ⟨⟨1, 2, 3⟩, ⟨0, 0, 0⟩⟩ := by
      simp only [aabbOfPoints, List.foldl_nil, obbOfAABB, BoxROI.mk.injEq,
        Point3.mk.injEq]
      refine ⟨⟨by ring, by ring, by ring⟩, by ring, by ring, by ring⟩
    rw [hfit]
    have hext : maxExtent (⟨⟨1, 2, 3⟩, ⟨0, 0, 0⟩⟩ : BoxROI) = 0 := by
      simp [maxExtent]
    rw [hext]
    simp only [enlargeBox, zero_mul, mul_zero]
    norm_num
  · simp [maxExtent]

/-- Witness for C6 (amended) at the single point (1,2,3) of `sceneC6`. -/
theorem c6_witness :
    setROIFromSelection true (fun _ => ⟨pt0, pt0⟩) sceneC6 ⟨[0], []⟩ =
      some ⟨⟨1, 2, 3⟩, ⟨0, 0, 0⟩⟩ ∧
    maxExtent ⟨⟨1, 2, 3⟩, ⟨0, 0, 0⟩⟩ = 0 :=
  (c6_roi_margin true (fun _ => ⟨pt0, pt0⟩) sceneC6 ⟨[0], []⟩ rfl rfl
    ⟨1, 2, 3⟩ [] rfl).2 rfl rfl

/-- A 5-image scene where images 0 and 1 observe both selected points and
image 2 observes one. -/
def exS2 : PCScene := ⟨5, [[0, 1], [0, 1, 2]], true, true⟩

/-- Witness for C2 (amended): with `minPoints = 2`, exactly images 0 and 1 of
the five qualify, and the sub-scene of exactly those two is returned. -/
theorem c2_witness :
    (cropToPoints exS2 [0, 1] 2 = none ↔
      (specQualifying exS2 [0, 1] 2).length < 2 ∨
      (specQualifying exS2 [0, 1] 2).length = exS2.numImages) ∧
    cropToPoints exS2 [0, 1] 2 = some [0, 1] := by
  refine ⟨(c2_cropToPoints_threshold exS2 [0, 1] 2 rfl rfl (by norm_num)
    (by decide) (by decide) (by decide) (by decide)).1, rfl⟩

/-- A 3-image scene whose only point is observed by images 0 and 1. -/
def exS2b : PCScene := ⟨3, [[0, 1]], true, true⟩

/-- C2 counterexample: at `minPoints = 0` every image of the scene reaches a
count of at least `minPoints` (the spec-side qualifying set is all 3 images),
so by the claim the result should be empty; the code only counts images
observing some selected point and returns the sub-scene of images 0 and 1. -/
theorem c2_counterexample :
    cropToPoints exS2b [0] 0 = some [0, 1] ∧
    (specQualifying exS2b [0] 0).length = exS2b.numImages :=
  ⟨rfl, rfl⟩

end Viewer
